import Mathlib

/-!
Verification of the cafe-menu HTML generator (`generate_menu.py`).

Strings are modelled as `List Char`.  Every definition below is a direct
transcription of the corresponding Python function; multi-line template
literals are transcribed with their exact whitespace, with the effect of
Python's `.strip()` on the constant ends of a template applied to the
literal itself.
-/

namespace CafeMenu

abbrev Str := List Char

/-- Python `str.strip` whitespace test (ASCII whitespace, which is what the
inputs can contain). -/
def isSpc (c : Char) : Bool :=
  (c == ' ') || (c == '\t') || (c == '\n') || (c == '\r') ||
  (c == Char.ofNat 11) || (c == Char.ofNat 12)

def trimL (s : Str) : Str := s.dropWhile isSpc

def trimR (s : Str) : Str := (s.reverse.dropWhile isSpc).reverse

/-- Python `str.strip()`. -/
def trim (s : Str) : Str := trimR (trimL s)

/-- Per-character table of Python `html.escape` (with `quote=True`, the
default used by the generator). -/
def escChar (ch : Char) : Str :=
  if ch == '&' then ("&amp;".toList)
  else if ch == '<' then ("&lt;".toList)
  else if ch == '>' then ("&gt;".toList)
  else if ch == '"' then ("&quot;".toList)
  else if ch == Char.ofNat 39 then ("&#x27;".toList)
  else [ch]

/-- `html.escape` from the Python standard library, as used at every
interpolation site of the generator. -/
def escape : Str → Str
  | [] => []
  | ch :: s => escChar ch ++ escape s

/-- The `PERSIAN_DIGITS` translation table (source lines 27-31): each ASCII
digit is replaced by the corresponding Extended Arabic-Indic digit. -/
def pdChar (ch : Char) : Char :=
  if ch == '0' then '۰'
  else if ch == '1' then '۱'
  else if ch == '2' then '۲'
  else if ch == '3' then '۳'
  else if ch == '4' then '۴'
  else if ch == '5' then '۵'
  else if ch == '6' then '۶'
  else if ch == '7' then '۷'
  else if ch == '8' then '۸'
  else if ch == '9' then '۹'
  else ch

/-- `to_persian_digits` (source line 30). -/
def to_persian_digits (s : Str) : Str := s.map pdChar

def lowerA (ch : Char) : Char :=
  if (decide (65 ≤ ch.toNat)) && (decide (ch.toNat ≤ 90)) then Char.ofNat (ch.toNat + 32) else ch

/-- `is_url` (source line 34): `re.match(r"^https?://", s.strip(), re.I)`,
i.e. a case-insensitive `http://` / `https://` test on the stripped value. -/
def is_url (s : Str) : Bool :=
  ("http://".toList).isPrefixOf ((trim s).map lowerA) ||
  ("https://".toList).isPrefixOf ((trim s).map lowerA)

/-- Decimal digit characters, used to print anchor indices as Python's
f-string does. -/
def digitChar (d : Nat) : Char :=
  match d with
  | 0 => '0' | 1 => '1' | 2 => '2' | 3 => '3' | 4 => '4'
  | 5 => '5' | 6 => '6' | 7 => '7' | 8 => '8' | 9 => '9'
  | _ => '0'

def natToStrAux : Nat → Nat → Str
  | 0, _ => []
  | fuel + 1, n => if n < 10 then [digitChar n] else natToStrAux fuel (n / 10) ++ [digitChar (n % 10)]

/-- Decimal rendering of a natural number, matching Python `str(n)`. -/
def natToStr (n : Nat) : Str := natToStrAux (n + 1) n

/-- A loosely-typed input value, as the JSON fields can be a string, a
number, or `null`. -/
inductive PVal where
  | vNull : PVal
  | vNum : Nat → PVal
  | vStr : Str → PVal

/-- `norm_text` (source line 38) applied to a loosely-typed value:
`None` becomes the empty string, everything else is `str(x).strip()`. -/
def normAny : PVal → Str
  | .vNull => []
  | .vNum n => trim (natToStr n)
  | .vStr s => trim s

/-- Character class of the numeral-detection regex
`^[0-9۰-۹,]+$` (source line 57): ASCII digits, Extended Arabic-Indic
digits U+06F0..U+06F9, or a comma. -/
def isNumCh (ch : Char) : Bool :=
  ((decide (48 ≤ ch.toNat)) && (decide (ch.toNat ≤ 57))) ||
  ((decide (1776 ≤ ch.toNat)) && (decide (ch.toNat ≤ 1785))) ||
  (ch == ',')

/-- Full-match test of the numeral-detection regex on the already-stripped
price string. -/
def looksNum (p : Str) : Bool := (!p.isEmpty) && p.all isNumCh

/-- The body of `fmt_price` after the unavailability check: append the
currency suffix when the value looks numeric (the code then strips the
concatenation), otherwise pass the trimmed value through. -/
def fmtCore (p currency : Str) : Str :=
  if looksNum p then trim (p ++ ' ' :: currency) else p

/-- `fmt_price` (source lines 44-61).  The alternate-numeral conversion is
applied last, exactly as in the source. -/
def fmt_price (price : PVal) (currency : Str) (upd : Bool) : Str :=
  if (normAny price).isEmpty || normAny price == ("-".toList) then ("-".toList)
  else if upd then to_persian_digits (fmtCore (normAny price) currency)
  else fmtCore (normAny price) currency

/-- One menu item (`it` in the source).  `icon` is an `Option` because
`it.get("icon", "☕")` distinguishes an absent key (default glyph) from a
present value; JSON `null` is modelled as the empty string, which is what
`norm_text` turns it into. -/
structure Item where
  name : Str
  desc : Str
  price : PVal
  img : Str
  icon : Option Str

/-- One category.  `title` is an `Option` because
`cat.get("title", f"دسته {idx}")` falls back to the generated label only
when the key is absent. -/
structure Category where
  title : Option Str
  hint : Str
  items : List Item

/-- The `cafe` record.  `name` is an `Option` because
`cafe.get("name", "کافه")` defaults only on an absent key; the remaining
fields default to the empty string, so absent and empty coincide. -/
structure Cafe where
  name : Option Str
  subtitle : Str
  address : Str
  phone : Str
  instagram : Str
  telegram : Str
  whatsapp : Str
  maps : Str
  currency : Str

/-- The top-level input record: `data.get("cafe", {})` and
`data.get("menu", [])`. -/
structure Data where
  cafe : Cafe
  menu : List Category

/-- `"\n".join` / `"\n\n".join`, Python string join. -/
def joinSep (sep : Str) : List Str → Str
  | [] => []
  | [s] => s
  | s :: rest => s ++ sep ++ joinSep sep rest

/-- `cafe_name` (source line 281). -/
def cafeName (c : Cafe) : Str := escape (trim (c.name.getD ("کافه".toList)))

/-- `currency` (source line 289): `norm_text(cafe.get("currency", "هزار تومان")) or "هزار تومان"`. -/
def currencyOf (c : Cafe) : Str :=
  if (trim c.currency).isEmpty then ("هزار تومان".toList) else trim c.currency

/-- `link_or_text` (source lines 291-297). -/
def link_or_text (label val : Str) : Str :=
  if val.isEmpty then []
  else if is_url val then
    ("<div class=\"row\"><b>".toList) ++ escape label ++ (":</b> <a href=\"".toList) ++
      escape val ++ ("\" target=\"_blank\" rel=\"noopener\">".toList) ++ escape val ++
      ("</a></div>".toList)
  else
    ("<div class=\"row\"><b>".toList) ++ escape label ++ (":</b> ".toList) ++ escape val ++
      ("</div>".toList)

/-- The per-category title (source lines 302 and 309):
`norm_text(cat.get("title", f"دسته {idx}"))`. -/
def titleOf (idx : Nat) (cat : Category) : Str :=
  trim (cat.title.getD (("دسته ".toList) ++ natToStr idx))

/-- One quick-navigation pill (source line 304). -/
def pillOf (idx : Nat) (cat : Category) : Str :=
  ("<a class=\"pill\" href=\"#cat-".toList) ++ natToStr idx ++ ("\"><strong>".toList) ++
    escape (titleOf idx cat) ++ ("</strong></a>".toList)

def pillsFrom (idx : Nat) : List Category → List Str
  | [] => []
  | cat :: rest => pillOf idx cat :: pillsFrom (idx + 1) rest

/-- `cat_pills_html` (source lines 300-305): the pills for the categories in
input order, with 1-based indices, joined by newlines. -/
def catPillsHtml (menu : List Category) : Str := joinSep ("\n".toList) (pillsFrom 1 menu)

/-- `name` of an item (source line 316): the escaped normalized name, or the
"unnamed" fallback when that is empty. -/
def nameOf (it : Item) : Str :=
  if (escape (trim it.name)).isEmpty then ("بدون نام".toList) else escape (trim it.name)

/-- `thumb` (source lines 321-327). -/
def thumbOf (it : Item) : Str :=
  if (!(trim it.img).isEmpty) && is_url (trim it.img) then
    ("<div class=\"thumb\"><img src=\"".toList) ++ escape (trim it.img) ++
      ("\" alt=\"".toList) ++ nameOf it ++ ("\"></div>".toList)
  else
    ("<div class=\"thumb\">".toList) ++ escape (trim (it.icon.getD ("☕".toList))) ++
      ("</div>".toList)

/-- `desc_html` (source line 329). -/
def descHtml (it : Item) : Str :=
  if (escape (trim it.desc)).isEmpty then []
  else ("<div class=\"desc\">".toList) ++ escape (trim it.desc) ++ ("</div>".toList)

/-- One item card (source lines 330-343), with the constant ends of the
template already stripped as the code's `.strip()` does. -/
def cardOf (upd : Bool) (currency : Str) (it : Item) : Str :=
  ("<div class=\"item\">\n                  ".toList) ++ thumbOf it ++
    ("\n                  <div class=\"meta\">\n                    <div class=\"name\">\n                      <h4>".toList) ++
    nameOf it ++
    ("</h4>\n                      <div class=\"price\">".toList) ++
    escape (fmt_price it.price currency upd) ++
    ("</div>\n                    </div>\n                    ".toList) ++
    descHtml it ++
    ("\n                  </div>\n                </div>".toList)

/-- The placeholder card for an empty category (source line 345). -/
def noItemsCard : Str :=
  ("<div class=\"item\"><div class=\"meta\"><div class=\"desc\">فعلاً آیتمی ثبت نشده.</div></div></div>".toList)

/-- `grid` (source line 345): the joined cards, or the placeholder card when
there are none. -/
def gridOf (upd : Bool) (currency : Str) (items : List Item) : Str :=
  if (items.map (cardOf upd currency)).isEmpty then noItemsCard
  else joinSep ("\n".toList) (items.map (cardOf upd currency))

/-- One category section (source lines 346-358), template ends stripped. -/
def sectionOf (idx : Nat) (upd : Bool) (currency : Str) (cat : Category) : Str :=
  ("<section class=\"section\" id=\"cat-".toList) ++ natToStr idx ++
    ("\">\n              <div class=\"section-title\">\n                <h2>".toList) ++
    escape (titleOf idx cat) ++
    ("</h2>\n                <div class=\"hint\">".toList) ++
    escape (trim cat.hint) ++
    ("</div>\n              </div>\n              <div class=\"grid\">\n                ".toList) ++
    gridOf upd currency cat.items ++
    ("\n              </div>\n            </section>".toList)

def sectionsFrom (idx : Nat) (upd : Bool) (currency : Str) : List Category → List Str
  | [] => []
  | cat :: rest => sectionOf idx upd currency cat :: sectionsFrom (idx + 1) upd currency rest

/-- `sections` (source lines 307-360): the category sections in input order
joined by blank lines. -/
def sectionsHtml (upd : Bool) (currency : Str) (menu : List Category) : Str :=
  joinSep ("\n\n".toList) (sectionsFrom 1 upd currency menu)

/-- The phone row of the contact block (source lines 284, 363 and 407): the
field is escaped at normalization, optionally digit-converted, and escaped
again at interpolation; an empty phone renders the placeholder prompt. -/
def phoneBlock (v : Str) (upd : Bool) : Str :=
  if !(escape (trim v)).isEmpty then
    ("<div class=\"row\"><b>تلفن:</b> ".toList) ++
      escape (if upd && (!(escape (trim v)).isEmpty) then to_persian_digits (escape (trim v))
              else escape (trim v)) ++
      ("</div>".toList)
  else ("<div class=\"row\">تلفن را در ورودی وارد کنید.</div>".toList)

/-- The address badge (source lines 283 and 386): the field is escaped at
normalization and escaped again at interpolation; an empty address renders
the placeholder prompt. -/
def addrSpan (a : Str) : Str :=
  if !(escape (trim a)).isEmpty then escape (escape (trim a))
  else ("آدرس را در ورودی وارد کنید".toList)

def htmlA : Str :=
  ("<!doctype html>\n<html lang=\"fa\" dir=\"rtl\">\n<head>\n  <meta charset=\"utf-8\" />\n  <meta name=\"viewport\" content=\"width=device-width,initial-scale=1\" />\n  <meta name=\"color-scheme\" content=\"dark\" />\n  <title>".toList)

def htmlB : Str :=
  ("</title>\n\n  <!-- Persian font -->\n  <link rel=\"preconnect\" href=\"https://fonts.googleapis.com\">\n  <link rel=\"preconnect\" href=\"https://fonts.gstatic.com\" crossorigin>\n  <link href=\"https://fonts.googleapis.com/css2?family=Vazirmatn:wght@300;400;600;700&display=swap\" rel=\"stylesheet\">\n\n  <link rel=\"stylesheet\" href=\"style.css\" />\n</head>\n\n<body>\n  <div class=\"container\">\n    <div class=\"topbar\">\n      <div class=\"badge\">📍 <span>".toList)

def htmlC : Str :=
  ("</span></div>\n      <a class=\"badge\" href=\"#cat-1\">🧾 <span>".toList)

def htmlD : Str :=
  ("</span></a>\n    </div>\n\n    <div class=\"brand\">\n      <h1>".toList)

def htmlE : Str :=
  ("</h1>\n      <div class=\"subtitle\">".toList)

def htmlF : Str :=
  ("</div>\n    </div>\n\n    <div class=\"hero\">\n      <div class=\"hero-inner\">\n        <div>\n          <div class=\"pill\">دسته‌ها</div>\n          <div style=\"height:10px\"></div>\n          <div style=\"display:flex;flex-wrap:wrap;gap:10px\">\n            ".toList)

def htmlG : Str :=
  ("\n          </div>\n        </div>\n\n        <div class=\"info\">\n          <h3>اطلاعات تماس</h3>\n          ".toList)

def nl10 : Str := ("\n          ".toList)

def htmlH : Str :=
  ("\n        </div>\n      </div>\n\n      <div class=\"quicklinks\">\n        <span class=\"pill\">واحد قیمت: <strong>".toList)

def htmlI : Str :=
  ("</strong></span>\n        <span class=\"pill\">نمایش: <strong>RTL</strong></span>\n      </div>\n    </div>\n\n    ".toList)

def htmlJ : Str :=
  ("\n\n    <div class=\"footer\">\n      ساخته‌شده با ژنراتور پایتون • ".toList)

def docTail : Str :=
  ("\n    </div>\n  </div>\n</body>\n</html>\n".toList)

/-- Everything of the rendered document before the escaped generation
timestamp (source lines 367-424). -/
def renderBody (d : Data) (page_title : Str) (upd : Bool) : Str :=
  htmlA ++ escape page_title ++ (" | ".toList) ++ cafeName d.cafe ++
    htmlB ++ addrSpan d.cafe.address ++
    htmlC ++ escape page_title ++
    htmlD ++ cafeName d.cafe ++
    htmlE ++ escape (trim d.cafe.subtitle) ++
    htmlF ++ catPillsHtml d.menu ++
    htmlG ++ phoneBlock d.cafe.phone upd ++
    nl10 ++ link_or_text ("اینستاگرام".toList) (trim d.cafe.instagram) ++
    nl10 ++ link_or_text ("تلگرام".toList) (trim d.cafe.telegram) ++
    nl10 ++ link_or_text ("واتس‌اپ".toList) (trim d.cafe.whatsapp) ++
    nl10 ++ link_or_text ("نقشه".toList) (trim d.cafe.maps) ++
    htmlH ++ escape (currencyOf d.cafe) ++
    htmlI ++ sectionsHtml upd (currencyOf d.cafe) d.menu ++
    htmlJ

/-- `render_html` (source lines 277-430), with the wall-clock timestamp
lifted to a parameter. -/
def render_html (d : Data) (page_title : Str) (upd : Bool) (generated_at : Str) : Str :=
  renderBody d page_title upd ++ escape generated_at ++ docTail

/-- Substring test: `pat` occurs contiguously in the second argument. -/
def isSub (pat : Str) : Str → Bool
  | [] => pat.isEmpty
  | c :: rest => pat.isPrefixOf (c :: rest) || isSub pat rest

/-- Number of (possibly overlapping) occurrences of `pat`. -/
def countSub (pat : Str) : Str → Nat
  | [] => if pat.isEmpty then 1 else 0
  | c :: rest => (if pat.isPrefixOf (c :: rest) then 1 else 0) + countSub pat rest

/-- The markup-significant characters that `html.escape` removes entirely
from its output (`&` is instead turned into an entity start). -/
def Safe (c : Char) : Prop := c = '<' ∨ c = '>' ∨ c = '"'

/-- The continuation begins with the tail of one of the five entities
`html.escape` can produce (`&amp;` `&lt;` `&gt;` `&quot;` `&#x27;`). -/
def entTailAt (rest : Str) : Bool :=
  (['a', 'm', 'p', ';'] : Str).isPrefixOf rest || (['l', 't', ';'] : Str).isPrefixOf rest ||
  (['g', 't', ';'] : Str).isPrefixOf rest || (['q', 'u', 'o', 't', ';'] : Str).isPrefixOf rest ||
  (['#', 'x', '2', '7', ';'] : Str).isPrefixOf rest

/-- Number of unescaped ampersands: occurrences of `&` that do not begin
one of the five entities `html.escape` produces. -/
def rawAmpCount : Str → Nat
  | [] => 0
  | c :: rest =>
    if c == '&' && !entTailAt rest then rawAmpCount rest + 1 else rawAmpCount rest

/-- The part of `htmlB` before its single ampersand (which sits inside the
fixed Google-Fonts URL `...wght@300;400;600;700&display=swap`). -/
def htmlBa : Str :=
  ("</title>\n\n  <!-- Persian font -->\n  <link rel=\"preconnect\" href=\"https://fonts.googleapis.com\">\n  <link rel=\"preconnect\" href=\"https://fonts.gstatic.com\" crossorigin>\n  <link href=\"https://fonts.googleapis.com/css2?family=Vazirmatn:wght@300;400;600;700".toList)

/-- The part of `htmlB` after its single ampersand. -/
def htmlBb : Str :=
  ("display=swap\" rel=\"stylesheet\">\n\n  <link rel=\"stylesheet\" href=\"style.css\" />\n</head>\n\n<body>\n  <div class=\"container\">\n    <div class=\"topbar\">\n      <div class=\"badge\">📍 <span>".toList)

/-- The string is non-empty and does not end in whitespace (a decidable
well-formedness condition on a currency label). -/
def lastNotSpc (l : Str) : Bool :=
  match l.getLast? with
  | some ch => !isSpc ch
  | none => false

/-- The branch decisions an item contributes to the rendered markup: whether
the thumbnail is an image link, and whether a description row is present. -/
def itemBits (it : Item) : Bool × Bool :=
  ((!(trim it.img).isEmpty) && is_url (trim it.img), (escape (trim it.desc)).isEmpty)

/-- Which of the three contact-row branches a link value takes:
0 = omitted, 1 = anchor, 2 = plain text. -/
def linkKind (v : Str) : Nat :=
  if v.isEmpty then 0 else if is_url v then 1 else 2

/-- The branch structure of a document: everything that selects markup in
`render_html`, and nothing about the text content of any field. -/
structure Shape where
  phoneEmpty : Bool
  kInsta : Nat
  kTel : Nat
  kWa : Nat
  kMaps : Nat
  cats : List (List (Bool × Bool))
deriving DecidableEq

/-- The branch structure of a document. -/
def shape (d : Data) : Shape :=
  { phoneEmpty := (trim d.cafe.phone).isEmpty
    kInsta := linkKind (trim d.cafe.instagram)
    kTel := linkKind (trim d.cafe.telegram)
    kWa := linkKind (trim d.cafe.whatsapp)
    kMaps := linkKind (trim d.cafe.maps)
    cats := d.menu.map (fun c => c.items.map itemBits) }

/-- A venue record whose text fields are full of markup-significant
characters. -/
def cafeHostile : Cafe :=
  { name := some ("<script>alert(1)</script>".toList)
    subtitle := "a & b <i>".toList
    address := "\"addr\" & <b>".toList
    phone := "09<12>&".toList
    instagram := "@ca<fe&".toList
    telegram := "https://t.me/<cafe>&x".toList
    whatsapp := "".toList
    maps := "".toList
    currency := "K<&>".toList }

def itemHostile : Item :=
  { name := "چای <sweet> & \"hot\"".toList
    desc := "<desc> & stuff".toList
    price := .vStr ("12<0".toList)
    img := "https://x.io/a<b>.png".toList
    icon := some ("<&>".toList) }

/-- A document with hostile text everywhere. -/
def docHostile : Data :=
  { cafe := cafeHostile
    menu := [ { title := some ("<نوشیدنی&>".toList), hint := "h<&>".toList, items := [itemHostile] },
              { title := none, hint := "".toList, items := [] } ] }

/-- The same branch structure as `docHostile`, with harmless text. -/
def cafeTame : Cafe :=
  { name := some ("cafe".toList)
    subtitle := "s".toList
    address := "addr".toList
    phone := "0912".toList
    instagram := "@cafe".toList
    telegram := "https://t.me/cafe".toList
    whatsapp := "".toList
    maps := "".toList
    currency := "K".toList }

def itemTame : Item :=
  { name := "tea".toList
    desc := "desc".toList
    price := .vNum 40
    img := "https://x.io/a.png".toList
    icon := none }

def docTame : Data :=
  { cafe := cafeTame
    menu := [ { title := some ("drinks".toList), hint := "h".toList, items := [itemTame] },
              { title := none, hint := "".toList, items := [] } ] }

/-- A one-category document used to inspect the anchor naming scheme. -/
def docOneCat : Data :=
  { cafe := cafeTame
    menu := [ { title := some ("drinks".toList), hint := "".toList, items := [] } ] }

/-- A category whose `title` key is present but holds an empty string. -/
def catEmptyTitle : Category :=
  { title := some ("".toList), hint := "".toList, items := [] }

/-- A document whose venue phone contains a markup-significant `&`. -/
def docAmpPhone : Data :=
  { cafe :=
      { name := none
        subtitle := "".toList
        address := "".toList
        phone := "09& 12".toList
        instagram := "".toList
        telegram := "".toList
        whatsapp := "".toList
        maps := "".toList
        currency := "".toList }
    menu := [] }

/-! ## Basic lemmas about the string utilities -/

theorem escape_append (a b : Str) : escape (a ++ b) = escape a ++ escape b := by
  induction a with
  | nil => rfl
  | cons ch t ih => simp [escape, ih]

theorem escChar_ne_nil (ch : Char) : escChar ch ≠ [] := by
  unfold escChar
  split_ifs <;> simp

theorem escape_eq_nil (s : Str) : escape s = [] ↔ s = [] := by
  cases s with
  | nil => simp [escape]
  | cons ch t =>
    simp only [escape]
    constructor
    · intro h
      exact absurd (List.append_eq_nil.mp h).1 (escChar_ne_nil ch)
    · intro h
      exact absurd h (by simp)

theorem isNumCh_not_spc {ch : Char} (h : isNumCh ch = true) : isSpc ch = false := by
  unfold isSpc
  simp only [Bool.or_eq_false_iff, beq_eq_false_iff_ne, ne_eq]
  refine ⟨⟨⟨⟨⟨?_, ?_⟩, ?_⟩, ?_⟩, ?_⟩, ?_⟩ <;>
    · rintro rfl
      exact absurd h (by decide)

theorem trimL_cons_of_not_spc {c : Char} (s : Str) (h : isSpc c = false) :
    trimL (c :: s) = c :: s := by
  simp [trimL, List.dropWhile_cons, h]

theorem trimR_eq_self (l : Str) (h : ∀ ch, l.getLast? = some ch → isSpc ch = false) :
    trimR l = l := by
  unfold trimR
  rcases hrev : l.reverse with _ | ⟨b, t⟩
  · rw [List.reverse_eq_nil_iff] at hrev
    simp [hrev]
  · have hb : l.getLast? = some b := by
      rw [← List.head?_reverse, hrev]
      rfl
    rw [List.dropWhile_cons, h b hb]
    simp only [Bool.false_eq_true, if_false]
    rw [← hrev, List.reverse_reverse]

/-! ## Claims about the price formatter -/

/-- Claim C4: a price that normalizes to the empty string or the literal "-"
is formatted as the literal "-", for every currency label and either setting
of the alternate-numeral flag. -/
theorem priceUnavailable (price : PVal) (currency : Str) (upd : Bool)
    (h : normAny price = [] ∨ normAny price = ("-".toList)) :
    fmt_price price currency upd = ("-".toList) := by
  unfold fmt_price
  rcases h with h | h <;> rw [h] <;> rfl

/-- Claim C4 witness: the literal "-" price with the numeral flag set. -/
theorem priceUnavailableWitness :
    (normAny (.vStr ("-".toList)) = [] ∨ normAny (.vStr ("-".toList)) = ("-".toList)) ∧
      fmt_price (.vStr ("-".toList)) ("K".toList) true = ("-".toList) :=
  ⟨Or.inr (by decide), priceUnavailable _ _ _ (Or.inr (by decide))⟩

/-- Claim C3: with a price that is neither empty nor the "-" sentinel, the
alternate-numeral rendering equals the digit-substitution table applied to
the plain rendering: the conversion runs last, after currency-label
concatenation. -/
theorem priceFlagLast (price : PVal) (currency : Str)
    (h : ¬(normAny price = [] ∨ normAny price = ("-".toList))) :
    fmt_price price currency true = to_persian_digits (fmt_price price currency false) := by
  push_neg at h
  have hc : ((normAny price).isEmpty || normAny price == ("-".toList)) = false := by
    simp only [Bool.or_eq_false_iff, List.isEmpty_eq_false, beq_eq_false_iff_ne, ne_eq]
    exact ⟨h.1, h.2⟩
  unfold fmt_price
  rw [hc]
  simp

/-- Claim C3 witness: a plain numeric string with a digit-free label. -/
theorem priceFlagLastWitness :
    (¬(normAny (.vStr ("120".toList)) = [] ∨ normAny (.vStr ("120".toList)) = ("-".toList))) ∧
      fmt_price (.vStr ("120".toList)) ("K".toList) true =
        to_persian_digits (fmt_price (.vStr ("120".toList)) ("K".toList) false) :=
  ⟨by decide, priceFlagLast _ _ (by decide)⟩

/-- Claim C2: when the trimmed price consists only of digits (ASCII or
Extended Arabic-Indic) and commas, the currency label is appended after a
single space (for a label with no surrounding whitespace); the numeral flag
then only applies the digit-substitution table to the result. -/
theorem priceAppendsCurrency (price : PVal) (currency : Str) (upd : Bool)
    (h1 : looksNum (normAny price) = true)
    (h2' : lastNotSpc currency = true) :
    fmt_price price currency upd =
      if upd then to_persian_digits (normAny price ++ ' ' :: currency)
      else normAny price ++ ' ' :: currency := by
  have h2 : ∀ ch, currency.getLast? = some ch → isSpc ch = false := by
    intro ch hch
    unfold lastNotSpc at h2'
    rw [hch] at h2'
    simpa using h2'
  have h3 : currency ≠ [] := by
    intro he
    rw [he] at h2'
    exact absurd h2' (by decide)
  have hall := h1
  unfold looksNum at hall
  rw [Bool.and_eq_true] at hall
  obtain ⟨hne, hnum⟩ := hall
  rw [Bool.not_eq_eq_eq_not, Bool.not_true, List.isEmpty_eq_false] at hne
  obtain ⟨a, p', hp'⟩ : ∃ a p', normAny price = a :: p' := by
    rcases hh : normAny price with _ | ⟨a, p'⟩
    · exact absurd hh hne
    · exact ⟨a, p', rfl⟩
  have ha : isNumCh a = true := by
    rw [List.all_eq_true] at hnum
    exact hnum a (by rw [hp']; exact List.mem_cons_self a p')
  have hdash : normAny price ≠ ("-".toList) := by
    intro he
    rw [he] at h1
    exact absurd h1 (by decide)
  have hcond : ((normAny price).isEmpty || normAny price == ("-".toList)) = false := by
    simp only [Bool.or_eq_false_iff, List.isEmpty_eq_false, beq_eq_false_iff_ne, ne_eq]
    exact ⟨hne, hdash⟩
  have hcore : fmtCore (normAny price) currency = normAny price ++ ' ' :: currency := by
    unfold fmtCore
    rw [h1]
    simp only [if_true]
    unfold trim
    rw [hp']
    have : (a :: p') ++ ' ' :: currency = a :: (p' ++ ' ' :: currency) := rfl
    rw [this, trimL_cons_of_not_spc _ (isNumCh_not_spc ha)]
    rw [← this]
    apply trimR_eq_self
    intro ch hch
    rw [List.getLast?_append_of_ne_nil _ (show (' ' :: currency) ≠ [] by simp)] at hch
    rw [show (' ' :: currency) = [' '] ++ currency from rfl,
      List.getLast?_append_of_ne_nil _ h3] at hch
    exact h2 ch hch
  unfold fmt_price
  rw [hcond, hcore]
  simp

/-- Claim C2 witness: the number 120000 with currency "K" renders as
"120000 K", and an already-native-script numeral string also gets the label
appended. -/
theorem priceAppendsCurrencyWitness :
    fmt_price (.vNum 120000) ("K".toList) false = ("120000 K".toList) ∧
      fmt_price (.vStr ("۱۲۰".toList)) ("تومان".toList) false = ("۱۲۰ تومان".toList) :=
  ⟨(priceAppendsCurrency (.vNum 120000) ("K".toList) false (by decide)
      (by decide)).trans (by decide),
   (priceAppendsCurrency (.vStr ("۱۲۰".toList)) ("تومان".toList) false (by decide)
      (by decide)).trans (by decide)⟩

/-! ## Substring machinery -/

theorem prefOf_iff : ∀ (p l : Str), p.isPrefixOf l = true ↔ ∃ t, l = p ++ t := by
  intro p
  induction p with
  | nil =>
    intro l
    simp [List.isPrefixOf]
  | cons a p' ih =>
    intro l
    cases l with
    | nil => simp [List.isPrefixOf]
    | cons b l' =>
      simp only [List.isPrefixOf, Bool.and_eq_true, beq_iff_eq, ih l']
      constructor
      · rintro ⟨rfl, t, rfl⟩
        exact ⟨t, rfl⟩
      · rintro ⟨t, ht⟩
        injection ht with h1 h2
        exact ⟨h1.symm, t, h2⟩

theorem isSub_iff (pat : Str) : ∀ (l : Str), isSub pat l = true ↔ ∃ x y, l = x ++ pat ++ y := by
  intro l
  induction l with
  | nil =>
    simp only [isSub, List.isEmpty_iff]
    constructor
    · rintro rfl
      exact ⟨[], [], rfl⟩
    · rintro ⟨x, y, h⟩
      rcases List.append_eq_nil.mp h.symm with ⟨h1, h2⟩
      exact (List.append_eq_nil.mp h1).2
  | cons c rest ih =>
    simp only [isSub, Bool.or_eq_true, ih, prefOf_iff]
    constructor
    · rintro (⟨t, ht⟩ | ⟨x, y, h⟩)
      · exact ⟨[], t, by simp [ht]⟩
      · exact ⟨c :: x, y, by simp [h]⟩
    · rintro ⟨x, y, h⟩
      cases x with
      | nil =>
        exact Or.inl ⟨y, by simpa using h⟩
      | cons d x' =>
        injection h with h1 h2
        exact Or.inr ⟨x', y, h2⟩

theorem isSub_of_decomp (pat x y : Str) : isSub pat (x ++ pat ++ y) = true :=
  (isSub_iff pat _).mpr ⟨x, y, rfl⟩

theorem isSub_two_mem {x y : Char} {s : Str} (h : isSub [x, y] s = true) : x ∈ s := by
  rcases (isSub_iff _ s).mp h with ⟨u, v, rfl⟩
  simp

theorem isSub_two_split (x y : Char) :
    ∀ (a b : Str), isSub [x, y] (a ++ b) = true →
      isSub [x, y] a = true ∨ isSub [x, y] b = true ∨
        (a.getLast? = some x ∧ b.head? = some y) := by
  intro a
  induction a with
  | nil =>
    intro b h
    rw [List.nil_append] at h
    exact Or.inr (Or.inl h)
  | cons c a' ih =>
    intro b h
    rw [List.cons_append, isSub, Bool.or_eq_true] at h
    rcases h with h | h
    · rcases (prefOf_iff _ _).mp h with ⟨t, ht⟩
      injection ht with h1 h2
      subst h1
      cases a' with
      | nil =>
        rw [List.nil_append] at h2
        subst h2
        exact Or.inr (Or.inr ⟨by simp, by simp⟩)
      | cons d a'' =>
        rw [List.cons_append] at h2
        injection h2 with h3 h4
        subst h3
        exact Or.inl ((isSub_iff _ _).mpr ⟨[], a'', by simp⟩)
    · rcases ih b h with h' | h' | ⟨h1, h2⟩
      · left
        rw [isSub, Bool.or_eq_true]
        exact Or.inr h'
      · exact Or.inr (Or.inl h')
      · refine Or.inr (Or.inr ⟨?_, h2⟩)
        cases a' with
        | nil => simp at h1
        | cons e t => rw [List.getLast?_cons_cons]; exact h1

/-! ## Escape output never contains markup-significant characters -/

theorem notMem_escChar {c : Char} (hc : Safe c) (ch : Char) : c ∉ escChar ch := by
  unfold escChar
  rcases hc with rfl | rfl | rfl <;>
    · split_ifs with h1 h2 h3 h4 h5
      all_goals
        first
          | decide
          | (simp only [List.mem_singleton]
             rintro rfl
             simp_all)

theorem notMem_escape {c : Char} (hc : Safe c) (s : Str) : c ∉ escape s := by
  induction s with
  | nil => simp [escape]
  | cons ch t ih =>
    simp only [escape, List.mem_append]
    rintro (h | h)
    · exact notMem_escChar hc ch h
    · exact ih h

theorem count_escape {c : Char} (hc : Safe c) (s : Str) : (escape s).count c = 0 :=
  List.count_eq_zero.mpr (notMem_escape hc s)

/-! ## Claims about the link-or-text renderer -/

/-- Claim C5 counterexample: the anchor produced for "https://t.me/cafe"
carries `rel="noopener"` only — nothing in it suppresses the Referer header
(no `noreferrer` token, no `referrerpolicy` attribute), although it does
open in a new context via `target="_blank"`. -/
theorem linkNoReferrerCx :
    isSub ("noreferrer".toList)
        (link_or_text ("Telegram".toList) ("https://t.me/cafe".toList)) = false ∧
      isSub ("referrerpolicy".toList)
        (link_or_text ("Telegram".toList) ("https://t.me/cafe".toList)) = false ∧
      isSub ("target=\"_blank\"".toList)
        (link_or_text ("Telegram".toList) ("https://t.me/cafe".toList)) = true := by
  decide

/-- Claim C5 (amended): an empty value renders nothing; an HTTP/HTTPS value
renders an anchor whose href holds the (HTML-escaped) URL, opened in a new
browsing context with opener access severed via `rel="noopener"`; any other
non-empty value renders the plain escaped row, which contains no anchor
element. -/
theorem linkOrTextCases (label val : Str) :
    (val = [] → link_or_text label val = []) ∧
    (is_url val = true →
      isSub (("href=\"".toList) ++ escape val ++ ("\"".toList)) (link_or_text label val) = true ∧
      isSub ("target=\"_blank\"".toList) (link_or_text label val) = true ∧
      isSub ("rel=\"noopener\"".toList) (link_or_text label val) = true) ∧
    (val ≠ [] → is_url val = false →
      link_or_text label val =
        ("<div class=\"row\"><b>".toList) ++ escape label ++ (":</b> ".toList) ++
          escape val ++ ("</div>".toList) ∧
      isSub ("<a".toList) (link_or_text label val) = false) := by
  refine ⟨?_, ?_, ?_⟩
  · rintro rfl
    rfl
  · intro hurl
    have hne : val ≠ [] := by
      rintro rfl
      exact absurd hurl (by decide)
    have hbr : link_or_text label val =
        ("<div class=\"row\"><b>".toList) ++ escape label ++ (":</b> <a href=\"".toList) ++
          escape val ++ ("\" target=\"_blank\" rel=\"noopener\">".toList) ++ escape val ++
          ("</a></div>".toList) := by
      unfold link_or_text
      rw [if_neg (by simp [List.isEmpty_iff, hne]), if_pos hurl]
    refine ⟨?_, ?_, ?_⟩
    · rw [hbr]
      rw [show (":</b> <a href=\"".toList) = (":</b> <a ".toList) ++ ("href=\"".toList) by decide]
      rw [show ("\" target=\"_blank\" rel=\"noopener\">".toList) =
        ("\"".toList) ++ (" target=\"_blank\" rel=\"noopener\">".toList) by decide]
      have := isSub_of_decomp (("href=\"".toList) ++ escape val ++ ("\"".toList))
        (("<div class=\"row\"><b>".toList) ++ escape label ++ (":</b> <a ".toList))
        ((" target=\"_blank\" rel=\"noopener\">".toList) ++ escape val ++ ("</a></div>".toList))
      rw [← this]
      congr 1
      simp [List.append_assoc]
    · rw [hbr]
      rw [show ("\" target=\"_blank\" rel=\"noopener\">".toList) =
        ("\" ".toList) ++ ("target=\"_blank\"".toList) ++ (" rel=\"noopener\">".toList) by decide]
      have := isSub_of_decomp ("target=\"_blank\"".toList)
        (("<div class=\"row\"><b>".toList) ++ escape label ++ (":</b> <a href=\"".toList) ++
          escape val ++ ("\" ".toList))
        ((" rel=\"noopener\">".toList) ++ escape val ++ ("</a></div>".toList))
      rw [← this]
      congr 1
      simp [List.append_assoc]
    · rw [hbr]
      rw [show ("\" target=\"_blank\" rel=\"noopener\">".toList) =
        ("\" target=\"_blank\" ".toList) ++ ("rel=\"noopener\"".toList) ++ (">".toList) by decide]
      have := isSub_of_decomp ("rel=\"noopener\"".toList)
        (("<div class=\"row\"><b>".toList) ++ escape label ++ (":</b> <a href=\"".toList) ++
          escape val ++ ("\" target=\"_blank\" ".toList))
        ((">".toList) ++ escape val ++ ("</a></div>".toList))
      rw [← this]
      congr 1
      simp [List.append_assoc]
  · intro hne hurl
    have hbr : link_or_text label val =
        ("<div class=\"row\"><b>".toList) ++ escape label ++ (":</b> ".toList) ++
          escape val ++ ("</div>".toList) := by
      unfold link_or_text
      rw [if_neg (by simp [List.isEmpty_iff, hne]), if_neg (by simp [hurl])]
    refine ⟨hbr, ?_⟩
    rw [hbr]
    by_contra hsub
    rw [Bool.not_eq_false] at hsub
    rw [show ("<a".toList) = ['<', 'a'] from rfl] at hsub
    rw [show ("<div class=\"row\"><b>".toList) ++ escape label ++ (":</b> ".toList) ++
        escape val ++ ("</div>".toList) =
        ("<div class=\"row\"><b>".toList) ++ (escape label ++ ((":</b> ".toList) ++
          (escape val ++ ("</div>".toList)))) by simp [List.append_assoc]] at hsub
    rcases isSub_two_split _ _ _ _ hsub with h | h | ⟨h, _⟩
    · exact absurd h (by decide)
    · rcases isSub_two_split _ _ _ _ h with h | h | ⟨h, _⟩
      · exact absurd (isSub_two_mem h) (notMem_escape (Or.inl rfl) label)
      · rcases isSub_two_split _ _ _ _ h with h | h | ⟨h, _⟩
        · exact absurd h (by decide)
        · rcases isSub_two_split _ _ _ _ h with h | h | ⟨h, _⟩
          · exact absurd (isSub_two_mem h) (notMem_escape (Or.inl rfl) val)
          · exact absurd h (by decide)
          · exact absurd (List.mem_of_mem_getLast? (by simp [h]))
              (notMem_escape (Or.inl rfl) val)
        · exact absurd h (by decide)
      · exact absurd (List.mem_of_mem_getLast? (by simp [h]))
          (notMem_escape (Or.inl rfl) label)
    · exact absurd h (by decide)

/-- Claim C5 witness: the two worked examples of the spec. -/
theorem linkOrTextCasesWitness :
    (is_url ("https://t.me/cafe".toList) = true ∧
      isSub ("rel=\"noopener\"".toList)
        (link_or_text ("Telegram".toList) ("https://t.me/cafe".toList)) = true) ∧
      (("@cafe".toList) ≠ [] ∧ is_url ("@cafe".toList) = false ∧
        isSub ("<a".toList) (link_or_text ("Telegram".toList) ("@cafe".toList)) = false) :=
  ⟨⟨by decide, ((linkOrTextCases ("Telegram".toList) ("https://t.me/cafe".toList)).2.1
      (by decide)).2.2⟩,
   ⟨by decide, by decide, ((linkOrTextCases ("Telegram".toList) ("@cafe".toList)).2.2
      (by decide) (by decide)).2⟩⟩

/-! ## Digits, fallback titles, and list positions -/

theorem natToStrAux_mem_digits :
    ∀ (fuel n : Nat) (c : Char), c ∈ natToStrAux fuel n → c ∈ ("0123456789".toList) := by
  intro fuel
  induction fuel with
  | zero => intro n c h; simp [natToStrAux] at h
  | succ fuel ih =>
    intro n c h
    rw [natToStrAux] at h
    split_ifs at h with hlt
    · rw [List.mem_singleton] at h
      subst h
      rcases n with _ | _ | _ | _ | _ | _ | _ | _ | _ | _ | n <;> simp [digitChar] <;> omega
    · rcases List.mem_append.mp h with h | h
      · exact ih _ c h
      · rw [List.mem_singleton] at h
        subst h
        have h10 : n % 10 < 10 := Nat.mod_lt _ (by omega)
        rcases hm : n % 10 with _ | _ | _ | _ | _ | _ | _ | _ | _ | _ | m <;>
          simp [digitChar] <;> omega

theorem natToStr_mem_digits {n : Nat} {c : Char} (h : c ∈ natToStr n) :
    c ∈ ("0123456789".toList) :=
  natToStrAux_mem_digits _ n c h

theorem natToStrAux_ne_nil : ∀ (fuel n : Nat), fuel ≠ 0 → natToStrAux fuel n ≠ [] := by
  intro fuel n h
  cases fuel with
  | zero => exact absurd rfl h
  | succ fuel =>
    rw [natToStrAux]
    split_ifs <;> simp

theorem natToStr_ne_nil (n : Nat) : natToStr n ≠ [] :=
  natToStrAux_ne_nil _ n (by omega)

theorem escape_eq_self_of (s : Str) (h : ∀ ch ∈ s, escChar ch = [ch]) : escape s = s := by
  induction s with
  | nil => rfl
  | cons ch t ih =>
    rw [escape, h ch (List.mem_cons_self ch t), ih (fun c hc => h c (List.mem_cons_of_mem ch hc))]
    rfl

theorem escape_natToStr (n : Nat) : escape (natToStr n) = natToStr n := by
  apply escape_eq_self_of
  intro ch hch
  have hd : ∀ c ∈ ("0123456789".toList), escChar c = [c] := by decide
  exact hd ch (natToStr_mem_digits hch)

theorem trim_fallback_title (n : Nat) :
    trim (("دسته ".toList) ++ natToStr n) = ("دسته ".toList) ++ natToStr n := by
  unfold trim
  rw [show ("دسته ".toList) ++ natToStr n = 'د' :: (("سته ".toList) ++ natToStr n) from rfl,
    trimL_cons_of_not_spc _ (by decide)]
  apply trimR_eq_self
  intro ch hch
  rw [show ('د' :: (("سته ".toList) ++ natToStr n)) = (("دسته ".toList) ++ natToStr n) from rfl,
    List.getLast?_append_of_ne_nil _ (natToStr_ne_nil n)] at hch
  have hin : ch ∈ (natToStr n).getLast? := by rw [hch]; rfl
  have hmem := natToStr_mem_digits (List.mem_of_mem_getLast? hin)
  have hd : ∀ c ∈ ("0123456789".toList), isSpc c = false := by decide
  exact hd ch hmem

theorem escape_fallback_title (n : Nat) :
    escape (("دسته ".toList) ++ natToStr n) = ("دسته ".toList) ++ natToStr n := by
  rw [escape_append, escape_natToStr, escape_eq_self_of _ (by decide)]

theorem pillsFrom_length : ∀ (menu : List Category) (k : Nat),
    (pillsFrom k menu).length = menu.length := by
  intro menu
  induction menu with
  | nil => intro k; rfl
  | cons c rest ih => intro k; simp [pillsFrom, ih]

theorem sectionsFrom_length : ∀ (menu : List Category) (k : Nat) (upd : Bool) (currency : Str),
    (sectionsFrom k upd currency menu).length = menu.length := by
  intro menu
  induction menu with
  | nil => intro k upd currency; rfl
  | cons c rest ih => intro k upd currency; simp [sectionsFrom, ih]

theorem pillsFrom_get : ∀ (menu : List Category) (k i : Nat) (h : i < menu.length),
    (pillsFrom k menu).get ⟨i, by rw [pillsFrom_length]; exact h⟩ =
      pillOf (k + i) (menu.get ⟨i, h⟩) := by
  intro menu
  induction menu with
  | nil => intro k i h; simp at h
  | cons c rest ih =>
    intro k i h
    cases i with
    | zero => simp [pillsFrom]
    | succ i =>
      have hi : i < rest.length := by simpa using h
      have := ih (k + 1) i hi
      simp only [pillsFrom, List.get_cons_succ]
      rw [this]
      congr 1
      omega

theorem sectionsFrom_get :
    ∀ (menu : List Category) (k : Nat) (upd : Bool) (currency : Str) (i : Nat)
      (h : i < menu.length),
    (sectionsFrom k upd currency menu).get ⟨i, by rw [sectionsFrom_length]; exact h⟩ =
      sectionOf (k + i) upd currency (menu.get ⟨i, h⟩) := by
  intro menu
  induction menu with
  | nil => intro k upd currency i h; simp at h
  | cons c rest ih =>
    intro k upd currency i h
    cases i with
    | zero => simp [sectionsFrom]
    | succ i =>
      have hi : i < rest.length := by simpa using h
      have := ih (k + 1) upd currency i hi
      simp only [sectionsFrom, List.get_cons_succ]
      rw [this]
      congr 1
      omega

/-! ## Claims about the document assembly -/

/-- Claim C7: a category with an empty item list renders the single
"no items yet" placeholder card — never an empty grid — and that grid is
what the category's section embeds. -/
theorem emptyCategoryPlaceholder (idx : Nat) (upd : Bool) (currency : Str) (cat : Category)
    (h : cat.items = []) :
    gridOf upd currency cat.items = noItemsCard ∧
      countSub ("class=\"item\"".toList) (gridOf upd currency cat.items) = 1 ∧
      isSub ("فعلاً آیتمی ثبت نشده.".toList) (gridOf upd currency cat.items) = true ∧
      isSub (gridOf upd currency cat.items) (sectionOf idx upd currency cat) = true := by
  rw [h]
  have hg : gridOf upd currency [] = noItemsCard := rfl
  rw [hg]
  refine ⟨rfl, by decide, by decide, ?_⟩
  apply (isSub_iff _ _).mpr
  refine ⟨("<section class=\"section\" id=\"cat-".toList) ++ natToStr idx ++
    ("\">\n              <div class=\"section-title\">\n                <h2>".toList) ++
    escape (titleOf idx cat) ++
    ("</h2>\n                <div class=\"hint\">".toList) ++ escape (trim cat.hint) ++
    ("</div>\n              </div>\n              <div class=\"grid\">\n                ".toList),
    ("\n              </div>\n            </section>".toList), ?_⟩
  rw [sectionOf, h, hg]

/-- Claim C7 witness: a concrete empty category. -/
theorem emptyCategoryPlaceholderWitness :
    catEmptyTitle.items = [] ∧
      gridOf false ("K".toList) catEmptyTitle.items = noItemsCard ∧
      countSub ("class=\"item\"".toList) (gridOf false ("K".toList) catEmptyTitle.items) = 1 :=
  ⟨rfl, (emptyCategoryPlaceholder 1 false ("K".toList) catEmptyTitle rfl).1,
    (emptyCategoryPlaceholder 1 false ("K".toList) catEmptyTitle rfl).2.1⟩

/-- Claim C8 counterexample: a category whose `title` key is present but
empty gets an empty pill label, not the "دسته 1" fallback the claim
requires for every title that normalizes to the empty string. -/
theorem pillEmptyTitleCx :
    catPillsHtml [catEmptyTitle] =
      ("<a class=\"pill\" href=\"#cat-1\"><strong></strong></a>".toList) ∧
      isSub ("دسته".toList) (catPillsHtml [catEmptyTitle]) = false := by
  exact ⟨by decide, by decide⟩

/-- Claim C8 (amended): the pill label is the generated fallback "دسته N"
(N the 1-based position) exactly when the category's title key is absent;
a present title renders as its escaped trimmed text, which in particular is
empty — not the fallback — when the title normalizes to empty. -/
theorem pillLabelRule (menu : List Category) (i : Nat) (h : i < menu.length) :
    ((menu.get ⟨i, h⟩).title = none →
      (pillsFrom 1 menu).get ⟨i, by rw [pillsFrom_length]; exact h⟩ =
        ("<a class=\"pill\" href=\"#cat-".toList) ++ natToStr (i + 1) ++
          ("\"><strong>".toList) ++ (("دسته ".toList) ++ natToStr (i + 1)) ++
          ("</strong></a>".toList)) ∧
    (∀ t, (menu.get ⟨i, h⟩).title = some t →
      (pillsFrom 1 menu).get ⟨i, by rw [pillsFrom_length]; exact h⟩ =
        ("<a class=\"pill\" href=\"#cat-".toList) ++ natToStr (i + 1) ++
          ("\"><strong>".toList) ++ escape (trim t) ++ ("</strong></a>".toList)) := by
  have hget := pillsFrom_get menu 1 i h
  rw [show 1 + i = i + 1 by omega] at hget
  constructor
  · intro hnone
    rw [hget, pillOf, titleOf, hnone, Option.getD_none, trim_fallback_title,
      escape_fallback_title]
  · intro t hsome
    rw [hget, pillOf, titleOf, hsome, Option.getD_some]

/-- Claim C8 witness: absent title gives the fallback label, non-empty
title gives the escaped title. -/
theorem pillLabelRuleWitness :
    (([{ title := none, hint := [], items := [] }] :
        List Category).get ⟨0, by simp⟩).title = none ∧
      (pillsFrom 1 [{ title := none, hint := [], items := [] }]).get ⟨0, by simp [pillsFrom]⟩ =
        ("<a class=\"pill\" href=\"#cat-".toList) ++ natToStr 1 ++ ("\"><strong>".toList) ++
          (("دسته ".toList) ++ natToStr 1) ++ ("</strong></a>".toList) :=
  ⟨rfl, (pillLabelRule [{ title := none, hint := [], items := [] }] 0 (by simp)).1 rfl⟩

set_option maxRecDepth 40000 in
/-- Claim C6 counterexample: the rendered document of a one-category input
contains no `category-1` anchor at all; the section anchor is `cat-1`. -/
theorem anchorNamingCx :
    isSub ("category-1".toList) (render_html docOneCat ("منو".toList) false ("ts".toList)) = false ∧
      isSub ("id=\"cat-1\"".toList) (render_html docOneCat ("منو".toList) false ("ts".toList)) = true := by
  exact ⟨by decide, by decide⟩

set_option maxRecDepth 8000 in
/-- Claim C6 (amended): the anchor of the i-th category section (1-based) is
`cat-i`, derived solely from the position; the pill at the same position
links to `#cat-i`; and the sections appear in the document joined in input
order. -/
theorem anchorScheme (d : Data) (t : Str) (upd : Bool) (ts : Str) (i : Nat)
    (h : i < d.menu.length) :
    isSub (("id=\"cat-".toList) ++ natToStr (i + 1) ++ ("\"".toList))
        ((sectionsFrom 1 upd (currencyOf d.cafe) d.menu).get
          ⟨i, by rw [sectionsFrom_length]; exact h⟩) = true ∧
      isSub (("href=\"#cat-".toList) ++ natToStr (i + 1) ++ ("\"".toList))
        ((pillsFrom 1 d.menu).get ⟨i, by rw [pillsFrom_length]; exact h⟩) = true ∧
      isSub (sectionsHtml upd (currencyOf d.cafe) d.menu) (render_html d t upd ts) = true := by
  have hsec := sectionsFrom_get d.menu 1 upd (currencyOf d.cafe) i h
  rw [show 1 + i = i + 1 by omega] at hsec
  have hpill := pillsFrom_get d.menu 1 i h
  rw [show 1 + i = i + 1 by omega] at hpill
  refine ⟨?_, ?_, ?_⟩
  · rw [hsec, sectionOf]
    apply (isSub_iff _ _).mpr
    refine ⟨("<section class=\"section\" ".toList), ?_, ?_⟩
    · exact (">\n              <div class=\"section-title\">\n                <h2>".toList) ++
        escape (titleOf (i + 1) (d.menu.get ⟨i, h⟩)) ++
        ("</h2>\n                <div class=\"hint\">".toList) ++
        escape (trim (d.menu.get ⟨i, h⟩).hint) ++
        ("</div>\n              </div>\n              <div class=\"grid\">\n                ".toList) ++
        gridOf upd (currencyOf d.cafe) (d.menu.get ⟨i, h⟩).items ++
        ("\n              </div>\n            </section>".toList)
    · rw [show ("<section class=\"section\" id=\"cat-".toList) =
        ("<section class=\"section\" ".toList) ++ ("id=\"cat-".toList) by decide,
        show ("\">\n              <div class=\"section-title\">\n                <h2>".toList) =
        ("\"".toList) ++ (">\n              <div class=\"section-title\">\n                <h2>".toList) by decide]
      simp [List.append_assoc]
  · rw [hpill, pillOf]
    apply (isSub_iff _ _).mpr
    refine ⟨("<a class=\"pill\" ".toList),
      (">".toList) ++ ("<strong>".toList) ++ escape (titleOf (i + 1) (d.menu.get ⟨i, h⟩)) ++
        ("</strong></a>".toList), ?_⟩
    rw [show ("<a class=\"pill\" href=\"#cat-".toList) =
      ("<a class=\"pill\" ".toList) ++ ("href=\"#cat-".toList) by decide,
      show ("\"><strong>".toList) = ("\"".toList) ++ (">".toList) ++ ("<strong>".toList) by decide]
    simp [List.append_assoc]
  · apply (isSub_iff _ _).mpr
    refine ⟨htmlA ++ escape t ++ (" | ".toList) ++ cafeName d.cafe ++
      htmlB ++ addrSpan d.cafe.address ++ htmlC ++ escape t ++ htmlD ++ cafeName d.cafe ++
      htmlE ++ escape (trim d.cafe.subtitle) ++ htmlF ++ catPillsHtml d.menu ++
      htmlG ++ phoneBlock d.cafe.phone upd ++
      nl10 ++ link_or_text ("اینستاگرام".toList) (trim d.cafe.instagram) ++
      nl10 ++ link_or_text ("تلگرام".toList) (trim d.cafe.telegram) ++
      nl10 ++ link_or_text ("واتس‌اپ".toList) (trim d.cafe.whatsapp) ++
      nl10 ++ link_or_text ("نقشه".toList) (trim d.cafe.maps) ++
      htmlH ++ escape (currencyOf d.cafe) ++ htmlI,
      htmlJ ++ escape ts ++ docTail, ?_⟩
    rw [render_html, renderBody]
    simp [List.append_assoc]

/-- Claim C6 witness: the first category of a concrete two-category
document. -/
theorem anchorSchemeWitness :
    0 < docTame.menu.length ∧
      isSub (("href=\"#cat-".toList) ++ natToStr 1 ++ ("\"".toList))
        ((pillsFrom 1 docTame.menu).get ⟨0, by simp [pillsFrom]⟩) = true :=
  ⟨by simp [docTame], (anchorScheme docTame [] false [] 0 (by simp [docTame])).2.1⟩

/-- Claim C9: rendering is deterministic and two renderings of the same
input differ only in the escaped generation-timestamp segment of the
footer: there is a common prefix and common suffix surrounding it. -/
theorem timestampLocalized (d : Data) (t : Str) (upd : Bool) (ts₁ ts₂ : Str) :
    ∃ pre suf, render_html d t upd ts₁ = pre ++ escape ts₁ ++ suf ∧
      render_html d t upd ts₂ = pre ++ escape ts₂ ++ suf :=
  ⟨renderBody d t upd, docTail, rfl, rfl⟩

/-! ## The doubly-escaped phone row -/

theorem amp_in_escape (s : Str) (h : '&' ∈ s) :
    ∃ u v, escape s = u ++ ("&amp;".toList) ++ v := by
  rcases List.append_of_mem h with ⟨s₁, s₂, rfl⟩
  refine ⟨escape s₁, escape s₂, ?_⟩
  rw [escape_append, show escape ('&' :: s₂) = ("&amp;".toList) ++ escape s₂ from rfl]
  simp [List.append_assoc]

theorem phoneBlock_amp (v : Str) (upd : Bool) (h : '&' ∈ trim v) :
    isSub ("&amp;amp;".toList) (phoneBlock v upd) = true := by
  obtain ⟨E1, E2, hE⟩ := amp_in_escape (trim v) h
  have hne : (escape (trim v)).isEmpty = false := by
    rw [hE]
    simp
  have hdisp : ∃ D1 D2,
      (if upd && (!(escape (trim v)).isEmpty) then to_persian_digits (escape (trim v))
        else escape (trim v)) = D1 ++ ("&amp;".toList) ++ D2 := by
    cases upd with
    | false => exact ⟨E1, E2, by simpa using hE⟩
    | true =>
      refine ⟨E1.map pdChar, E2.map pdChar, ?_⟩
      rw [hne]
      simp only [Bool.not_false, Bool.and_true, if_true]
      unfold to_persian_digits
      rw [hE, List.map_append, List.map_append,
        show List.map pdChar ("&amp;".toList) = ("&amp;".toList) by decide]
  obtain ⟨D1, D2, hD⟩ := hdisp
  rw [phoneBlock, if_pos (by rw [hne]; rfl), hD, escape_append, escape_append,
    show escape ("&amp;".toList) = ("&amp;amp;".toList) by decide]
  apply (isSub_iff _ _).mpr
  exact ⟨("<div class=\"row\"><b>تلفن:</b> ".toList) ++ escape D1,
    escape D2 ++ ("</div>".toList), by simp [List.append_assoc]⟩

/-- Claim C10: a venue phone containing `&` is escaped twice — once at
normalization, once at interpolation — so the rendered document shows the
doubly-escaped form `&amp;amp;`; the link fields, by contrast, interpolate
the single escape of their raw value. -/
theorem phoneDoubleEscaped (d : Data) (t : Str) (upd : Bool) (ts : Str)
    (h : '&' ∈ trim d.cafe.phone) :
    isSub ("&amp;amp;".toList) (phoneBlock d.cafe.phone upd) = true ∧
      isSub (phoneBlock d.cafe.phone upd) (render_html d t upd ts) = true ∧
      (∀ label val, val ≠ [] → is_url val = false →
        link_or_text label val =
          ("<div class=\"row\"><b>".toList) ++ escape label ++ (":</b> ".toList) ++
            escape val ++ ("</div>".toList)) := by
  refine ⟨phoneBlock_amp d.cafe.phone upd h, ?_, ?_⟩
  · apply (isSub_iff _ _).mpr
    refine ⟨htmlA ++ escape t ++ (" | ".toList) ++ cafeName d.cafe ++
      htmlB ++ addrSpan d.cafe.address ++ htmlC ++ escape t ++ htmlD ++ cafeName d.cafe ++
      htmlE ++ escape (trim d.cafe.subtitle) ++ htmlF ++ catPillsHtml d.menu ++ htmlG,
      nl10 ++ link_or_text ("اینستاگرام".toList) (trim d.cafe.instagram) ++
        nl10 ++ link_or_text ("تلگرام".toList) (trim d.cafe.telegram) ++
        nl10 ++ link_or_text ("واتس‌اپ".toList) (trim d.cafe.whatsapp) ++
        nl10 ++ link_or_text ("نقشه".toList) (trim d.cafe.maps) ++
        htmlH ++ escape (currencyOf d.cafe) ++
        htmlI ++ sectionsHtml upd (currencyOf d.cafe) d.menu ++
        htmlJ ++ escape ts ++ docTail, ?_⟩
    rw [render_html, renderBody]
    simp [List.append_assoc]
  · intro label val hne hurl
    rw [link_or_text, if_neg (by simp [List.isEmpty_iff, hne]), if_neg (by simp [hurl])]

/-- Claim C10 witness: a concrete phone "09& 12". -/
theorem phoneDoubleEscapedWitness :
    ('&' ∈ trim docAmpPhone.cafe.phone) ∧
      isSub ("&amp;amp;".toList) (phoneBlock docAmpPhone.cafe.phone true) = true :=
  ⟨by decide,
    (phoneDoubleEscaped docAmpPhone [] true [] (by decide)).1⟩

/-! ## Count congruences: the number of markup-significant characters in the
rendered document depends only on the branch structure of the input, never
on the text of any field. -/

theorem count_natToStr_safe {c : Char} (hc : Safe c) (n : Nat) : (natToStr n).count c = 0 := by
  rw [List.count_eq_zero]
  intro hmem
  have hd := natToStr_mem_digits hmem
  rcases hc with rfl | rfl | rfl <;> revert hd <;> decide

theorem count_cafeName {c : Char} (hc : Safe c) (k : Cafe) : (cafeName k).count c = 0 :=
  count_escape hc _

theorem count_nameOf {c : Char} (hc : Safe c) (it : Item) : (nameOf it).count c = 0 := by
  rw [nameOf]
  split_ifs
  · rw [List.count_eq_zero]
    rcases hc with rfl | rfl | rfl <;> decide
  · exact count_escape hc _

theorem count_addrSpan {c : Char} (hc : Safe c) (a : Str) : (addrSpan a).count c = 0 := by
  rw [addrSpan]
  split_ifs
  · exact count_escape hc _
  · rw [List.count_eq_zero]
    rcases hc with rfl | rfl | rfl <;> decide

theorem escape_isEmpty (s : Str) : (escape s).isEmpty = s.isEmpty := by
  cases s with
  | nil => rfl
  | cons ch t =>
    have h1 : (escChar ch ++ escape t).isEmpty = false := by
      simp only [List.isEmpty_eq_false, ne_eq, List.append_eq_nil, not_and]
      intro he
      exact absurd he (escChar_ne_nil ch)
    rw [escape, h1]
    rfl

theorem count_phoneBlock_cong {c : Char} (hc : Safe c) (f₁ f₂ : Bool) {v₁ v₂ : Str}
    (h : (trim v₁).isEmpty = (trim v₂).isEmpty) :
    (phoneBlock v₁ f₁).count c = (phoneBlock v₂ f₂).count c := by
  rw [phoneBlock, phoneBlock]
  simp only [escape_isEmpty]
  by_cases hb : (trim v₁).isEmpty = true
  · have hb₂ : (trim v₂).isEmpty = true := by rw [← h, hb]
    rw [hb, hb₂]
    simp only [Bool.not_true, Bool.false_eq_true, if_false]
  · rw [Bool.not_eq_true] at hb
    have hb₂ : (trim v₂).isEmpty = false := by rw [← h, hb]
    rw [hb, hb₂]
    simp only [Bool.not_false, if_true, List.count_append, count_escape hc]

theorem count_link_cong {c : Char} (hc : Safe c) (l₁ l₂ : Str) {v₁ v₂ : Str}
    (h : linkKind v₁ = linkKind v₂) :
    (link_or_text l₁ v₁).count c = (link_or_text l₂ v₂).count c := by
  rw [linkKind, linkKind] at h
  rw [link_or_text, link_or_text]
  by_cases h₁ : v₁.isEmpty = true <;> by_cases h₂ : v₂.isEmpty = true
  · rw [h₁, h₂]
    simp only [Bool.false_eq_true, reduceIte, if_false, if_true]
  · rw [Bool.not_eq_true] at h₂
    rw [h₁, h₂] at h
    simp only [Bool.false_eq_true, reduceIte, if_false, if_true] at h
    split_ifs at h <;> omega
  · rw [Bool.not_eq_true] at h₁
    rw [h₁, h₂] at h
    simp only [Bool.false_eq_true, reduceIte, if_false, if_true] at h
    split_ifs at h <;> omega
  · rw [Bool.not_eq_true] at h₁ h₂
    rw [h₁, h₂] at h ⊢
    simp only [Bool.false_eq_true, reduceIte, if_false, if_true] at h ⊢
    by_cases u₁ : is_url v₁ = true <;> by_cases u₂ : is_url v₂ = true
    · rw [u₁, u₂]
      simp only [Bool.false_eq_true, reduceIte, if_false, if_true,
        List.count_append, count_escape hc]
    · rw [Bool.not_eq_true] at u₂
      rw [u₁, u₂] at h
      simp only [Bool.false_eq_true, reduceIte, if_false, if_true] at h
      omega
    · rw [Bool.not_eq_true] at u₁
      rw [u₁, u₂] at h
      simp only [Bool.false_eq_true, reduceIte, if_false, if_true] at h
      omega
    · rw [Bool.not_eq_true] at u₁ u₂
      rw [u₁, u₂]
      simp only [Bool.false_eq_true, reduceIte, if_false, if_true,
        List.count_append, count_escape hc]

theorem count_pillOf {c : Char} (hc : Safe c) (idx : Nat) (cat cat' : Category) :
    (pillOf idx cat).count c = (pillOf idx cat').count c := by
  rw [pillOf, pillOf]
  simp only [List.count_append, count_escape hc]

theorem count_joinSep_cong {c : Char} (sep : Str) {L₁ L₂ : List Str}
    (hf : List.Forall₂ (fun a b => a.count c = b.count c) L₁ L₂) :
    (joinSep sep L₁).count c = (joinSep sep L₂).count c := by
  induction hf with
  | nil => rfl
  | @cons a b l₁ l₂ ha ht iht =>
    cases ht with
    | nil => exact ha
    | @cons x y xs ys hb ht₂ =>
      show (a ++ sep ++ joinSep sep (x :: xs)).count c = (b ++ sep ++ joinSep sep (y :: ys)).count c
      simp only [List.count_append]
      rw [ha, iht]

theorem pills_forall₂ {c : Char} (hc : Safe c) :
    ∀ (m₁ m₂ : List Category), m₁.length = m₂.length → ∀ k,
      List.Forall₂ (fun a b => a.count c = b.count c) (pillsFrom k m₁) (pillsFrom k m₂) := by
  intro m₁
  induction m₁ with
  | nil =>
    intro m₂ h k
    cases m₂ with
    | nil => exact List.Forall₂.nil
    | cons b l₂ => simp at h
  | cons a l₁ ih =>
    intro m₂ h k
    cases m₂ with
    | nil => simp at h
    | cons b l₂ =>
      exact List.Forall₂.cons (count_pillOf hc k a b) (ih l₂ (by simpa using h) (k + 1))

theorem count_catPills_cong {c : Char} (hc : Safe c) {m₁ m₂ : List Category}
    (h : m₁.length = m₂.length) :
    (catPillsHtml m₁).count c = (catPillsHtml m₂).count c :=
  count_joinSep_cong _ (pills_forall₂ hc m₁ m₂ h 1)

theorem count_thumb_cong {c : Char} (hc : Safe c) {it₁ it₂ : Item}
    (h : (itemBits it₁).1 = (itemBits it₂).1) :
    (thumbOf it₁).count c = (thumbOf it₂).count c := by
  rw [itemBits, itemBits] at h
  dsimp only at h
  rw [thumbOf, thumbOf]
  by_cases hb : ((!(trim it₁.img).isEmpty) && is_url (trim it₁.img)) = true
  · have hb₂ : ((!(trim it₂.img).isEmpty) && is_url (trim it₂.img)) = true := by rw [← h, hb]
    rw [hb, hb₂]
    simp only [Bool.false_eq_true, reduceIte, if_false, if_true,
      List.count_append, count_escape hc, count_nameOf hc]
  · rw [Bool.not_eq_true] at hb
    have hb₂ : ((!(trim it₂.img).isEmpty) && is_url (trim it₂.img)) = false := by rw [← h, hb]
    rw [hb, hb₂]
    simp only [Bool.false_eq_true, reduceIte, if_false, if_true,
      List.count_append, count_escape hc]

theorem count_descHtml_cong {c : Char} (hc : Safe c) {it₁ it₂ : Item}
    (h : (itemBits it₁).2 = (itemBits it₂).2) :
    (descHtml it₁).count c = (descHtml it₂).count c := by
  rw [itemBits, itemBits] at h
  dsimp only at h
  rw [descHtml, descHtml]
  by_cases hb : (escape (trim it₁.desc)).isEmpty = true
  · have hb₂ : (escape (trim it₂.desc)).isEmpty = true := by rw [← h, hb]
    rw [hb, hb₂]
    simp only [reduceIte]
  · rw [Bool.not_eq_true] at hb
    have hb₂ : (escape (trim it₂.desc)).isEmpty = false := by rw [← h, hb]
    rw [hb, hb₂]
    simp only [Bool.false_eq_true, reduceIte, if_false, if_true,
      List.count_append, count_escape hc]

theorem count_cardOf_cong {c : Char} (hc : Safe c) (f₁ f₂ : Bool) (cur₁ cur₂ : Str)
    {it₁ it₂ : Item} (h : itemBits it₁ = itemBits it₂) :
    (cardOf f₁ cur₁ it₁).count c = (cardOf f₂ cur₂ it₂).count c := by
  have h1 : (itemBits it₁).1 = (itemBits it₂).1 := by rw [h]
  have h2 : (itemBits it₁).2 = (itemBits it₂).2 := by rw [h]
  rw [cardOf, cardOf]
  simp only [List.count_append]
  rw [count_thumb_cong hc h1, count_descHtml_cong hc h2, count_nameOf hc, count_nameOf hc,
    count_escape hc, count_escape hc]

theorem cards_forall₂ {c : Char} (hc : Safe c) (f₁ f₂ : Bool) (cur₁ cur₂ : Str) :
    ∀ (items₁ items₂ : List Item), items₁.map itemBits = items₂.map itemBits →
      List.Forall₂ (fun a b => a.count c = b.count c)
        (items₁.map (cardOf f₁ cur₁)) (items₂.map (cardOf f₂ cur₂)) := by
  intro items₁
  induction items₁ with
  | nil =>
    intro items₂ h
    cases items₂ with
    | nil => exact List.Forall₂.nil
    | cons b l₂ => simp at h
  | cons a l₁ ih =>
    intro items₂ h
    cases items₂ with
    | nil => simp at h
    | cons b l₂ =>
      simp only [List.map_cons, List.cons.injEq] at h
      exact List.Forall₂.cons (count_cardOf_cong hc f₁ f₂ cur₁ cur₂ h.1) (ih l₂ h.2)

theorem count_gridOf_cong {c : Char} (hc : Safe c) (f₁ f₂ : Bool) (cur₁ cur₂ : Str)
    {items₁ items₂ : List Item} (h : items₁.map itemBits = items₂.map itemBits) :
    (gridOf f₁ cur₁ items₁).count c = (gridOf f₂ cur₂ items₂).count c := by
  rw [gridOf, gridOf]
  cases items₁ with
  | nil =>
    cases items₂ with
    | nil => rfl
    | cons b l₂ => simp at h
  | cons a l₁ =>
    cases items₂ with
    | nil => simp at h
    | cons b l₂ =>
      rw [if_neg (by simp), if_neg (by simp)]
      exact count_joinSep_cong _ (cards_forall₂ hc f₁ f₂ cur₁ cur₂ _ _ h)

theorem count_sectionOf_cong {c : Char} (hc : Safe c) (idx : Nat) (f₁ f₂ : Bool)
    (cur₁ cur₂ : Str) {cat₁ cat₂ : Category}
    (h : cat₁.items.map itemBits = cat₂.items.map itemBits) :
    (sectionOf idx f₁ cur₁ cat₁).count c = (sectionOf idx f₂ cur₂ cat₂).count c := by
  rw [sectionOf, sectionOf]
  simp only [List.count_append]
  rw [count_gridOf_cong hc f₁ f₂ cur₁ cur₂ h, count_escape hc, count_escape hc,
    count_escape hc, count_escape hc]

theorem sections_forall₂ {c : Char} (hc : Safe c) (f₁ f₂ : Bool) (cur₁ cur₂ : Str) :
    ∀ (m₁ m₂ : List Category),
      m₁.map (fun cat => cat.items.map itemBits) = m₂.map (fun cat => cat.items.map itemBits) →
      ∀ k, List.Forall₂ (fun a b => a.count c = b.count c)
        (sectionsFrom k f₁ cur₁ m₁) (sectionsFrom k f₂ cur₂ m₂) := by
  intro m₁
  induction m₁ with
  | nil =>
    intro m₂ h k
    cases m₂ with
    | nil => exact List.Forall₂.nil
    | cons b l₂ => simp at h
  | cons a l₁ ih =>
    intro m₂ h k
    cases m₂ with
    | nil => simp at h
    | cons b l₂ =>
      simp only [List.map_cons, List.cons.injEq] at h
      exact List.Forall₂.cons (count_sectionOf_cong hc k f₁ f₂ cur₁ cur₂ h.1) (ih l₂ h.2 (k + 1))

theorem count_sectionsHtml_cong {c : Char} (hc : Safe c) (f₁ f₂ : Bool) (cur₁ cur₂ : Str)
    {m₁ m₂ : List Category}
    (h : m₁.map (fun cat => cat.items.map itemBits) = m₂.map (fun cat => cat.items.map itemBits)) :
    (sectionsHtml f₁ cur₁ m₁).count c = (sectionsHtml f₂ cur₂ m₂).count c :=
  count_joinSep_cong _ (sections_forall₂ hc f₁ f₂ cur₁ cur₂ m₁ m₂ h 1)

/-- The number of `<`, `>` and `"` characters in the rendered document is
fully determined by the branch structure of the input (`shape`): two
documents with the same shape but arbitrarily different text in every field
(and arbitrary page titles, numeral flags and timestamps) render with
exactly the same number of markup-significant characters. -/
theorem count_render_cong (c : Char) (hc : Safe c) (d₁ d₂ : Data) (t₁ t₂ : Str)
    (f₁ f₂ : Bool) (ts₁ ts₂ : Str) (hs : shape d₁ = shape d₂) :
    (render_html d₁ t₁ f₁ ts₁).count c = (render_html d₂ t₂ f₂ ts₂).count c := by
  have h1 : (trim d₁.cafe.phone).isEmpty = (trim d₂.cafe.phone).isEmpty :=
    congrArg Shape.phoneEmpty hs
  have h2 : linkKind (trim d₁.cafe.instagram) = linkKind (trim d₂.cafe.instagram) :=
    congrArg Shape.kInsta hs
  have h3 : linkKind (trim d₁.cafe.telegram) = linkKind (trim d₂.cafe.telegram) :=
    congrArg Shape.kTel hs
  have h4 : linkKind (trim d₁.cafe.whatsapp) = linkKind (trim d₂.cafe.whatsapp) :=
    congrArg Shape.kWa hs
  have h5 : linkKind (trim d₁.cafe.maps) = linkKind (trim d₂.cafe.maps) :=
    congrArg Shape.kMaps hs
  have h6 : d₁.menu.map (fun c => c.items.map itemBits) =
      d₂.menu.map (fun c => c.items.map itemBits) :=
    congrArg Shape.cats hs
  have hlen : d₁.menu.length = d₂.menu.length := by
    have := congrArg List.length h6
    simpa using this
  rw [render_html, render_html, renderBody, renderBody]
  simp only [List.count_append]
  rw [count_phoneBlock_cong hc f₁ f₂ h1,
    count_link_cong hc ("اینستاگرام".toList) ("اینستاگرام".toList) h2,
    count_link_cong hc ("تلگرام".toList) ("تلگرام".toList) h3,
    count_link_cong hc ("واتس‌اپ".toList) ("واتس‌اپ".toList) h4,
    count_link_cong hc ("نقشه".toList) ("نقشه".toList) h5,
    count_catPills_cong hc hlen,
    count_sectionsHtml_cong hc f₁ f₂ (currencyOf d₁.cafe) (currencyOf d₂.cafe) h6]
  simp [count_escape hc, count_cafeName hc, count_addrSpan hc]

/-! ## No unescaped ampersands beyond the template's own one

Every `&` in the output of `escape` begins one of the five entities the
escaper produces, so the only unescaped ampersand of a rendered document is
the fixed one inside the Google-Fonts URL of the template: `rawAmpCount` of
the whole document is exactly 1, for every input. -/

set_option maxRecDepth 40000

theorem rawAmp_noAmp_append : ∀ (a b : Str), '&' ∉ a → rawAmpCount (a ++ b) = rawAmpCount b := by
  intro a
  induction a with
  | nil => intro b h; rfl
  | cons c a' ih =>
    intro b h
    have hc : (c == '&') = false := by
      rw [beq_eq_false_iff_ne]
      intro he
      exact h (he ▸ List.mem_cons_self c a')
    show rawAmpCount (c :: (a' ++ b)) = rawAmpCount b
    rw [rawAmpCount, hc]
    simp only [Bool.false_and, Bool.false_eq_true, if_false]
    exact ih b (fun hm => h (List.mem_cons_of_mem c hm))

theorem rawAmp_cons_ne (c : Char) (rest : Str) (h : (c == '&') = false) :
    rawAmpCount (c :: rest) = rawAmpCount rest := by
  rw [rawAmpCount, h]
  simp only [Bool.false_and, Bool.false_eq_true, if_false]

theorem rawAmp_cons_amp_ent (rest : Str) (h : entTailAt rest = true) :
    rawAmpCount ('&' :: rest) = rawAmpCount rest := by
  rw [rawAmpCount, h]
  simp only [beq_self_eq_true, Bool.not_true, Bool.and_false, Bool.false_eq_true, if_false]

theorem rawAmp_cons_amp_raw (rest : Str) (h : entTailAt rest = false) :
    rawAmpCount ('&' :: rest) = rawAmpCount rest + 1 := by
  rw [rawAmpCount, h]
  simp only [beq_self_eq_true, Bool.not_false, Bool.and_self, if_true]

theorem entTailAt_amp (b : Str) : entTailAt ('a' :: 'm' :: 'p' :: ';' :: b) = true := by
  simp [entTailAt, List.isPrefixOf]

theorem entTailAt_lt (b : Str) : entTailAt ('l' :: 't' :: ';' :: b) = true := by
  simp [entTailAt, List.isPrefixOf]

theorem entTailAt_gt (b : Str) : entTailAt ('g' :: 't' :: ';' :: b) = true := by
  simp [entTailAt, List.isPrefixOf]

theorem entTailAt_quot (b : Str) : entTailAt ('q' :: 'u' :: 'o' :: 't' :: ';' :: b) = true := by
  simp [entTailAt, List.isPrefixOf]

theorem entTailAt_x27 (b : Str) : entTailAt ('#' :: 'x' :: '2' :: '7' :: ';' :: b) = true := by
  simp [entTailAt, List.isPrefixOf]

theorem entTailAt_false_of_head (c : Char) (rest : Str)
    (h1 : ('a' == c) = false) (h2 : ('l' == c) = false) (h3 : ('g' == c) = false)
    (h4 : ('q' == c) = false) (h5 : ('#' == c) = false) :
    entTailAt (c :: rest) = false := by
  simp [entTailAt, List.isPrefixOf, h1, h2, h3, h4, h5]

theorem rawAmp_escChar_append (ch : Char) (b : Str) :
    rawAmpCount (escChar ch ++ b) = rawAmpCount b := by
  unfold escChar
  split_ifs with h1 h2 h3 h4 h5
  · rw [show ("&amp;".toList) ++ b = '&' :: 'a' :: 'm' :: 'p' :: ';' :: b from rfl,
      rawAmp_cons_amp_ent _ (entTailAt_amp b), rawAmp_cons_ne 'a' _ (by decide),
      rawAmp_cons_ne 'm' _ (by decide), rawAmp_cons_ne 'p' _ (by decide),
      rawAmp_cons_ne ';' _ (by decide)]
  · rw [show ("&lt;".toList) ++ b = '&' :: 'l' :: 't' :: ';' :: b from rfl,
      rawAmp_cons_amp_ent _ (entTailAt_lt b), rawAmp_cons_ne 'l' _ (by decide),
      rawAmp_cons_ne 't' _ (by decide), rawAmp_cons_ne ';' _ (by decide)]
  · rw [show ("&gt;".toList) ++ b = '&' :: 'g' :: 't' :: ';' :: b from rfl,
      rawAmp_cons_amp_ent _ (entTailAt_gt b), rawAmp_cons_ne 'g' _ (by decide),
      rawAmp_cons_ne 't' _ (by decide), rawAmp_cons_ne ';' _ (by decide)]
  · rw [show ("&quot;".toList) ++ b = '&' :: 'q' :: 'u' :: 'o' :: 't' :: ';' :: b from rfl,
      rawAmp_cons_amp_ent _ (entTailAt_quot b), rawAmp_cons_ne 'q' _ (by decide),
      rawAmp_cons_ne 'u' _ (by decide), rawAmp_cons_ne 'o' _ (by decide),
      rawAmp_cons_ne 't' _ (by decide), rawAmp_cons_ne ';' _ (by decide)]
  · rw [show ("&#x27;".toList) ++ b = '&' :: '#' :: 'x' :: '2' :: '7' :: ';' :: b from rfl,
      rawAmp_cons_amp_ent _ (entTailAt_x27 b), rawAmp_cons_ne '#' _ (by decide),
      rawAmp_cons_ne 'x' _ (by decide), rawAmp_cons_ne '2' _ (by decide),
      rawAmp_cons_ne '7' _ (by decide), rawAmp_cons_ne ';' _ (by decide)]
  · rw [Bool.not_eq_true] at h1
    show rawAmpCount (ch :: b) = rawAmpCount b
    exact rawAmp_cons_ne ch b h1

theorem rawAmp_escape_append (s b : Str) : rawAmpCount (escape s ++ b) = rawAmpCount b := by
  induction s with
  | nil => rfl
  | cons ch t ih =>
    rw [escape, List.append_assoc, rawAmp_escChar_append]
    exact ih

theorem rawAmp_natToStr_append (n : Nat) (b : Str) :
    rawAmpCount (natToStr n ++ b) = rawAmpCount b :=
  rawAmp_noAmp_append _ _ (fun h => absurd (natToStr_mem_digits h) (by decide))

theorem rawAmp_cafeName_append (k : Cafe) (b : Str) :
    rawAmpCount (cafeName k ++ b) = rawAmpCount b := by
  rw [cafeName]
  exact rawAmp_escape_append _ _

theorem rawAmp_nameOf_append (it : Item) (b : Str) :
    rawAmpCount (nameOf it ++ b) = rawAmpCount b := by
  rw [nameOf]
  split_ifs
  · apply rawAmp_noAmp_append
    decide
  · exact rawAmp_escape_append _ _

theorem rawAmp_addrSpan_append (a b : Str) :
    rawAmpCount (addrSpan a ++ b) = rawAmpCount b := by
  rw [addrSpan]
  split_ifs
  · exact rawAmp_escape_append _ _
  · apply rawAmp_noAmp_append
    decide

theorem rawAmp_phoneBlock_append (v : Str) (f : Bool) (b : Str) :
    rawAmpCount (phoneBlock v f ++ b) = rawAmpCount b := by
  rw [phoneBlock]
  split_ifs
  · simp only [List.append_assoc]
    rw [rawAmp_noAmp_append, rawAmp_escape_append, rawAmp_noAmp_append]
    · decide
    · decide
  · simp only [List.append_assoc]
    rw [rawAmp_noAmp_append, rawAmp_escape_append, rawAmp_noAmp_append]
    · decide
    · decide
  · apply rawAmp_noAmp_append
    decide

theorem rawAmp_link_append (l v b : Str) :
    rawAmpCount (link_or_text l v ++ b) = rawAmpCount b := by
  rw [link_or_text]
  split_ifs
  · rfl
  · simp only [List.append_assoc]
    rw [rawAmp_noAmp_append, rawAmp_escape_append, rawAmp_noAmp_append, rawAmp_escape_append,
      rawAmp_noAmp_append, rawAmp_escape_append, rawAmp_noAmp_append]
    all_goals decide
  · simp only [List.append_assoc]
    rw [rawAmp_noAmp_append, rawAmp_escape_append, rawAmp_noAmp_append, rawAmp_escape_append,
      rawAmp_noAmp_append]
    all_goals decide

theorem rawAmp_thumb_append (it : Item) (b : Str) :
    rawAmpCount (thumbOf it ++ b) = rawAmpCount b := by
  rw [thumbOf]
  split_ifs
  · simp only [List.append_assoc]
    rw [rawAmp_noAmp_append, rawAmp_escape_append, rawAmp_noAmp_append, rawAmp_nameOf_append,
      rawAmp_noAmp_append]
    all_goals decide
  · simp only [List.append_assoc]
    rw [rawAmp_noAmp_append, rawAmp_escape_append, rawAmp_noAmp_append]
    all_goals decide

theorem rawAmp_descHtml_append (it : Item) (b : Str) :
    rawAmpCount (descHtml it ++ b) = rawAmpCount b := by
  rw [descHtml]
  split_ifs
  · rfl
  · simp only [List.append_assoc]
    rw [rawAmp_noAmp_append, rawAmp_escape_append, rawAmp_noAmp_append]
    all_goals decide

theorem rawAmp_card_append (f : Bool) (cur : Str) (it : Item) (b : Str) :
    rawAmpCount (cardOf f cur it ++ b) = rawAmpCount b := by
  rw [cardOf]
  simp only [List.append_assoc]
  rw [rawAmp_noAmp_append, rawAmp_thumb_append, rawAmp_noAmp_append, rawAmp_nameOf_append,
    rawAmp_noAmp_append, rawAmp_escape_append, rawAmp_noAmp_append, rawAmp_descHtml_append,
    rawAmp_noAmp_append]
  all_goals decide

theorem rawAmp_cardsJoin_append : ∀ (items : List Item) (f : Bool) (cur b : Str),
    rawAmpCount (joinSep ("\n".toList) (items.map (cardOf f cur)) ++ b) = rawAmpCount b := by
  intro items
  induction items with
  | nil => intro f cur b; rfl
  | cons it rest ih =>
    intro f cur b
    cases rest with
    | nil =>
      show rawAmpCount (cardOf f cur it ++ b) = rawAmpCount b
      exact rawAmp_card_append f cur it b
    | cons it2 rest2 =>
      show rawAmpCount ((cardOf f cur it ++ ("\n".toList) ++
        joinSep ("\n".toList) ((it2 :: rest2).map (cardOf f cur))) ++ b) = rawAmpCount b
      simp only [List.append_assoc]
      rw [rawAmp_card_append, rawAmp_noAmp_append]
      · exact ih f cur b
      · decide

theorem rawAmp_grid_append (f : Bool) (cur : Str) (items : List Item) (b : Str) :
    rawAmpCount (gridOf f cur items ++ b) = rawAmpCount b := by
  rw [gridOf]
  cases items with
  | nil =>
    show rawAmpCount (noItemsCard ++ b) = rawAmpCount b
    apply rawAmp_noAmp_append
    decide
  | cons it rest =>
    show rawAmpCount (joinSep ("\n".toList) ((it :: rest).map (cardOf f cur)) ++ b) =
      rawAmpCount b
    exact rawAmp_cardsJoin_append (it :: rest) f cur b

theorem rawAmp_section_append (k : Nat) (f : Bool) (cur : Str) (cat : Category) (b : Str) :
    rawAmpCount (sectionOf k f cur cat ++ b) = rawAmpCount b := by
  rw [sectionOf]
  simp only [List.append_assoc]
  rw [rawAmp_noAmp_append, rawAmp_natToStr_append, rawAmp_noAmp_append, rawAmp_escape_append,
    rawAmp_noAmp_append, rawAmp_escape_append, rawAmp_noAmp_append, rawAmp_grid_append,
    rawAmp_noAmp_append]
  all_goals decide

theorem rawAmp_sectionsJoin_append : ∀ (m : List Category) (k : Nat) (f : Bool) (cur b : Str),
    rawAmpCount (joinSep ("\n\n".toList) (sectionsFrom k f cur m) ++ b) = rawAmpCount b := by
  intro m
  induction m with
  | nil => intro k f cur b; rfl
  | cons cat rest ih =>
    intro k f cur b
    cases rest with
    | nil =>
      show rawAmpCount (sectionOf k f cur cat ++ b) = rawAmpCount b
      exact rawAmp_section_append k f cur cat b
    | cons cat2 rest2 =>
      show rawAmpCount ((sectionOf k f cur cat ++ ("\n\n".toList) ++
        joinSep ("\n\n".toList) (sectionsFrom (k + 1) f cur (cat2 :: rest2))) ++ b) =
        rawAmpCount b
      simp only [List.append_assoc]
      rw [rawAmp_section_append, rawAmp_noAmp_append]
      · exact ih (k + 1) f cur b
      · decide

theorem rawAmp_sectionsHtml_append (f : Bool) (cur : Str) (m : List Category) (b : Str) :
    rawAmpCount (sectionsHtml f cur m ++ b) = rawAmpCount b := by
  rw [sectionsHtml]
  exact rawAmp_sectionsJoin_append m 1 f cur b

theorem rawAmp_pill_append (k : Nat) (cat : Category) (b : Str) :
    rawAmpCount (pillOf k cat ++ b) = rawAmpCount b := by
  rw [pillOf]
  simp only [List.append_assoc]
  rw [rawAmp_noAmp_append, rawAmp_natToStr_append, rawAmp_noAmp_append, rawAmp_escape_append,
    rawAmp_noAmp_append]
  all_goals decide

theorem rawAmp_pillsJoin_append : ∀ (m : List Category) (k : Nat) (b : Str),
    rawAmpCount (joinSep ("\n".toList) (pillsFrom k m) ++ b) = rawAmpCount b := by
  intro m
  induction m with
  | nil => intro k b; rfl
  | cons cat rest ih =>
    intro k b
    cases rest with
    | nil =>
      show rawAmpCount (pillOf k cat ++ b) = rawAmpCount b
      exact rawAmp_pill_append k cat b
    | cons cat2 rest2 =>
      show rawAmpCount ((pillOf k cat ++ ("\n".toList) ++
        joinSep ("\n".toList) (pillsFrom (k + 1) (cat2 :: rest2))) ++ b) = rawAmpCount b
      simp only [List.append_assoc]
      rw [rawAmp_pill_append, rawAmp_noAmp_append]
      · exact ih (k + 1) b
      · decide

theorem rawAmp_catPills_append (m : List Category) (b : Str) :
    rawAmpCount (catPillsHtml m ++ b) = rawAmpCount b := by
  rw [catPillsHtml]
  exact rawAmp_pillsJoin_append m 1 b

theorem rawAmp_htmlB_append (b : Str) : rawAmpCount (htmlB ++ b) = rawAmpCount b + 1 := by
  have hsplit : htmlB = htmlBa ++ '&' :: htmlBb := by decide
  rw [hsplit, List.append_assoc, List.cons_append, rawAmp_noAmp_append, rawAmp_cons_amp_raw,
    rawAmp_noAmp_append]
  · decide
  · rw [show htmlBb ++ b = 'd' ::
      (("isplay=swap\" rel=\"stylesheet\">\n\n  <link rel=\"stylesheet\" href=\"style.css\" />\n</head>\n\n<body>\n  <div class=\"container\">\n    <div class=\"topbar\">\n      <div class=\"badge\">📍 <span>".toList) ++ b) from rfl]
    exact entTailAt_false_of_head 'd' _ (by decide) (by decide) (by decide) (by decide) (by decide)
  · decide

theorem rawAmp_docTail : rawAmpCount docTail = 0 := by decide

theorem rawAmpCount_render (d : Data) (t : Str) (upd : Bool) (ts : Str) :
    rawAmpCount (render_html d t upd ts) = 1 := by
  rw [render_html, renderBody]
  simp only [List.append_assoc]
  rw [rawAmp_noAmp_append, rawAmp_escape_append, rawAmp_noAmp_append, rawAmp_cafeName_append,
    rawAmp_htmlB_append, rawAmp_addrSpan_append, rawAmp_noAmp_append, rawAmp_escape_append,
    rawAmp_noAmp_append, rawAmp_cafeName_append, rawAmp_noAmp_append, rawAmp_escape_append,
    rawAmp_noAmp_append, rawAmp_catPills_append, rawAmp_noAmp_append, rawAmp_phoneBlock_append,
    rawAmp_noAmp_append, rawAmp_link_append, rawAmp_noAmp_append, rawAmp_link_append,
    rawAmp_noAmp_append, rawAmp_link_append, rawAmp_noAmp_append, rawAmp_link_append,
    rawAmp_noAmp_append, rawAmp_escape_append, rawAmp_noAmp_append, rawAmp_sectionsHtml_append,
    rawAmp_noAmp_append, rawAmp_escape_append, rawAmp_docTail]
  all_goals decide

/-- Claim C1: markup-significant characters from input fields never reach
the output unescaped.  First conjunct (`<`, `>`, `"`): the number of such
characters in the rendered document is fully determined by the branch
structure of the input (`shape`) — two documents with the same shape but
arbitrarily different text in every field (and arbitrary page titles,
numeral flags and timestamps) render with exactly the same number of them,
so no field text can inject markup.  Second conjunct (`&`): for every
input whatsoever, the rendered document contains exactly one ampersand not
beginning an `html.escape` entity — the fixed one inside the template's
Google-Fonts URL — so every field-originated `&` appears only in escaped
(entity) form. -/
theorem markupNeverUnescaped :
    (∀ c, Safe c → ∀ (d₁ d₂ : Data) (t₁ t₂ : Str) (f₁ f₂ : Bool) (ts₁ ts₂ : Str),
      shape d₁ = shape d₂ →
      (render_html d₁ t₁ f₁ ts₁).count c = (render_html d₂ t₂ f₂ ts₂).count c) ∧
    (∀ (d : Data) (t : Str) (upd : Bool) (ts : Str),
      rawAmpCount (render_html d t upd ts) = 1) :=
  ⟨fun c hc d₁ d₂ t₁ t₂ f₁ f₂ ts₁ ts₂ hs =>
      count_render_cong c hc d₁ d₂ t₁ t₂ f₁ f₂ ts₁ ts₂ hs,
    rawAmpCount_render⟩

/-- Claim C1 witness: a document with hostile markup in every field counts
the same as its tame twin, and its rendered document has exactly the one
template ampersand unescaped. -/
theorem markupNeverUnescapedWitness :
    Safe '<' ∧ shape docHostile = shape docTame ∧
      ((render_html docHostile ("منو".toList) false ("ts".toList)).count '<' =
        (render_html docTame ("m".toList) true ("t2".toList)).count '<') ∧
      rawAmpCount (render_html docHostile ("منو".toList) false ("ts".toList)) = 1 :=
  ⟨Or.inl rfl, by decide,
    markupNeverUnescaped.1 '<' (Or.inl rfl) docHostile docTame _ _ _ _ _ _ (by decide),
    markupNeverUnescaped.2 docHostile _ _ _⟩

end CafeMenu
